import Mathlib

/-!
Shallow embedding of `src/supabase/functions/enhanced-learning/enhanced_learning_core.py`
(XMRT-Ecosystem enhanced autonomous learning core).

Python floats are modelled as rationals (ℚ); `float('-inf')` as `⊥` in `WithBot ℚ`;
Python dicts keyed by strings as association lists; `collections.deque(maxlen=C)`
as a list with the bounded-append operation `dequeAppend C`; numpy arrays as
lists of rationals.  Exceptions are modelled with explicit failure flags on the
input record (Python raises are environmental: they come from malformed dynamic
input, which the typed embedding cannot produce directly), and fallible
operations return `Option` / an explicit error constructor.
-/

namespace EnhancedLearning

/-- A parameter dictionary: Python `Dict[str, float]` as an association list. -/
abbrev ParamMap := List (String × ℚ)

/-- Sum of a list of rationals (numpy reductions operate on such lists). -/
def listSum (l : List ℚ) : ℚ := l.foldr (· + ·) 0

/-- Embedding of `np.max` on a nonempty 1-D array. On the empty list (where
numpy would raise) we return 0; no claim depends on that value. -/
def npMax : List ℚ → ℚ
  | [] => 0
  | x :: xs => xs.foldl max x

/-- Embedding of `np.var`: population variance, mean of squared deviations. -/
def npVar (l : List ℚ) : ℚ :=
  let n : ℚ := l.length
  let mean := listSum l / n
  listSum (l.map (fun x => (x - mean) ^ 2)) / n

/-- Embedding of `np.clip(x, lo, hi)`. -/
def npClip (x lo hi : ℚ) : ℚ := min (max x lo) hi

/-- Append to a `collections.deque(maxlen=cap)`: when the deque is full the
oldest (front) element is discarded. -/
def dequeAppend {α : Type} (cap : ℕ) (l : List α) (x : α) : List α :=
  if l.length < cap then l ++ [x] else l.tail ++ [x]

/-- Insert a whole sequence of records, one `dequeAppend` at a time, into an
initially empty bounded deque. -/
def insertAll {α : Type} (cap : ℕ) (xs : List α) : List α :=
  xs.foldl (dequeAppend cap) []

/-- Lookup in an association list with `ℚ × ℚ` values (a parameter-space
dictionary); mirrors Python `space[name]` / `name in space`. -/
def lookupPS (name : String) : List (String × ℚ × ℚ) → Option (ℚ × ℚ)
  | [] => none
  | (k, v) :: rest => if name = k then some v else lookupPS name rest

/-- Lookup in a `ParamMap`; mirrors Python `d.get(name, default)` patterns. -/
def lookupPM (name : String) : ParamMap → Option ℚ
  | [] => none
  | (k, v) :: rest => if name = k then some v else lookupPM name rest

/-- Set a key in a `ParamMap` (replace if present, append if absent):
Python `d[name] = v` on a dict, preserving insertion order. -/
def setPM (name : String) (v : ℚ) : ParamMap → ParamMap
  | [] => [(name, v)]
  | (k, w) :: rest => if name = k then (k, v) :: rest else (k, w) :: setPM name v rest

/-- Embedding of the `LearningExperience` dataclass.  `context` and `outcome`
are arbitrary dicts in Python; the embedding keeps exactly the projections the
core reads from them (`parameters`, `performance`, `gradients`, `next_state`,
`episode_done`) plus opaque hash seeds for the RL state hashing. -/
structure LearningExperience where
  timestamp : String
  context_params : ParamMap
  context_hash_raw : ℕ
  action_taken_hash_raw : ℕ
  outcome_performance : ℚ
  outcome_gradients : ParamMap
  outcome_next_state_hash_raw : ℕ
  outcome_episode_done : Bool
  reward : ℚ
  confidence : ℚ
  deriving Repr, DecidableEq

/-- state of `AdaptiveGradientDescent` (gradient descent with adaptive
learning rate; `performance_history = deque(maxlen=50)`). -/
structure AdaptiveGradientDescent where
  learning_rate : ℚ
  base_learning_rate : ℚ
  momentum : ℚ
  adaptive_factor : ℚ
  decay_factor : ℚ
  velocity : ParamMap
  performance_history : List ℚ
  deriving Repr, DecidableEq

/-- `AdaptiveGradientDescent.__init__` with the constructor defaults
`momentum=0.9`, `adaptive_factor=1.1`, `decay_factor=0.95`. -/
def AdaptiveGradientDescent.init (learning_rate : ℚ) : AdaptiveGradientDescent :=
  { learning_rate := learning_rate
    base_learning_rate := learning_rate
    momentum := 9/10
    adaptive_factor := 11/10
    decay_factor := 19/20
    velocity := []
    performance_history := [] }

/-- One step of the velocity loop body of `AdaptiveGradientDescent.update`:
`velocity[p] = momentum * velocity.get(p, 0) + learning_rate * gradient`. -/
def velocityStep (momentum lr : ℚ) (vel : ParamMap) (pg : String × ℚ) : ParamMap :=
  setPM pg.1 (momentum * ((lookupPM pg.1 vel).getD 0) + lr * pg.2) vel

/-- `AdaptiveGradientDescent.update`: append the observed performance to the
bounded history; if at least two observations exist, raise the learning rate
(capped at `2 * base_learning_rate`) when the last observation improved on the
previous one, otherwise decay it; then update the velocity for each gradient. -/
def AdaptiveGradientDescent.update (s : AdaptiveGradientDescent)
    (performance : ℚ) (gradients : ParamMap) : AdaptiveGradientDescent :=
  let hist := dequeAppend 50 s.performance_history performance
  let n := hist.length
  let lr :=
    if 2 ≤ n then
      if hist.getD (n - 2) 0 < hist.getD (n - 1) 0 then
        min (s.learning_rate * s.adaptive_factor) (s.base_learning_rate * 2)
      else
        s.learning_rate * s.decay_factor
    else s.learning_rate
  { s with
    learning_rate := lr
    performance_history := hist
    velocity := gradients.foldl (velocityStep s.momentum lr) s.velocity }

/-- Iterated `AdaptiveGradientDescent.update` over a sequence of
(performance, gradients) feedback records. -/
def gradIter (s : AdaptiveGradientDescent) (l : List (ℚ × ParamMap)) :
    AdaptiveGradientDescent :=
  l.foldl (fun st pg => st.update pg.1 pg.2) s

/-- state of `BayesianOptimizer`.  `best_score` starts at `float('-inf')`,
modelled as `⊥ : WithBot ℚ`; `best_params` starts at `None`. -/
structure BayesianOptimizer where
  parameter_space : List (String × ℚ × ℚ)
  observations : List ℚ
  parameter_history : List ParamMap
  best_params : Option ParamMap
  best_score : WithBot ℚ
  deriving DecidableEq

/-- `BayesianOptimizer.__init__`. -/
def BayesianOptimizer.init (space : List (String × ℚ × ℚ)) : BayesianOptimizer :=
  { parameter_space := space
    observations := []
    parameter_history := []
    best_params := none
    best_score := ⊥ }

/-- `BayesianOptimizer.update`: record the observation and parameters; when the
observed performance strictly exceeds `best_score`, replace `best_score` and
`best_params`. -/
def BayesianOptimizer.update (s : BayesianOptimizer)
    (parameters : ParamMap) (performance : ℚ) : BayesianOptimizer :=
  let s1 := { s with
    observations := s.observations ++ [performance]
    parameter_history := s.parameter_history ++ [parameters] }
  if s.best_score < (performance : WithBot ℚ) then
    { s1 with best_score := (performance : WithBot ℚ), best_params := some parameters }
  else s1

/-- Iterated `BayesianOptimizer.update`. -/
def bayesIter (s : BayesianOptimizer) (l : List (ParamMap × ℚ)) : BayesianOptimizer :=
  l.foldl (fun st pp => st.update pp.1 pp.2) s

/-- `BayesianOptimizer._random_sample`: one uniform draw per declared
parameter.  `np.random.uniform(lo, hi)` is modelled by a draw stream
`u : ℕ → ℚ` of unit-interval samples, the i-th parameter receiving
`lo + u i * (hi - lo)`. -/
def randomSampleAux (u : ℕ → ℚ) : ℕ → List (String × ℚ × ℚ) → ParamMap
  | _, [] => []
  | i, (name, lo, hi) :: rest => (name, lo + u i * (hi - lo)) :: randomSampleAux u (i + 1) rest

/-- `BayesianOptimizer._random_sample` at draw index 0. -/
def randomSample (space : List (String × ℚ × ℚ)) (u : ℕ → ℚ) : ParamMap :=
  randomSampleAux u 0 space

/-- Perturbation loop of `BayesianOptimizer._ucb_acquisition`: each parameter
gets Gaussian noise (modelled by an unconstrained draw stream `g : ℕ → ℚ`,
already scaled by `0.1 * (hi - lo)` in the source) and is clipped into its
declared bounds.  A key absent from the parameter space is a Python
`KeyError`, modelled as `none`. -/
def ucbPerturbAux (space : List (String × ℚ × ℚ)) (g : ℕ → ℚ) :
    ℕ → ParamMap → Option ParamMap
  | _, [] => some []
  | i, (name, v) :: rest =>
    match lookupPS name space with
    | none => none
    | some (lo, hi) =>
      match ucbPerturbAux space g (i + 1) rest with
      | none => none
      | some ps => some ((name, npClip (v + g i) lo hi) :: ps)

/-- `BayesianOptimizer._ucb_acquisition`: perturb the best-known parameters
(or, when none are recorded, a fresh random sample) and clip into bounds. -/
def ucbAcquisition (s : BayesianOptimizer) (u g : ℕ → ℚ) : Option ParamMap :=
  let base := match s.best_params with
    | some p => p
    | none => randomSample s.parameter_space u
  ucbPerturbAux s.parameter_space g 0 base

/-- `BayesianOptimizer.get_next_parameters`: uniform cold start below 3
observations, otherwise the UCB perturbation path. -/
def BayesianOptimizer.get_next_parameters (s : BayesianOptimizer) (u g : ℕ → ℚ) :
    Option ParamMap :=
  if s.observations.length < 3 then some (randomSample s.parameter_space u)
  else ucbAcquisition s u g

/-- state of `ReinforcementLearningAgent` (tabular Q-learning).  The Q-table
`np.zeros((state_space_size, action_space_size))` is a list of rows. -/
structure ReinforcementLearningAgent where
  state_space_size : ℕ
  action_space_size : ℕ
  learning_rate : ℚ
  discount_factor : ℚ
  epsilon : ℚ
  epsilon_decay : ℚ
  q_table : List (List ℚ)
  experience_buffer : List LearningExperience
  deriving Repr, DecidableEq

/-- `ReinforcementLearningAgent.__init__` with the constructor defaults. -/
def ReinforcementLearningAgent.init : ReinforcementLearningAgent :=
  { state_space_size := 1000
    action_space_size := 10
    learning_rate := 1/10
    discount_factor := 19/20
    epsilon := 1/10
    epsilon_decay := 199/200
    q_table := List.replicate 1000 (List.replicate 10 0)
    experience_buffer := [] }

/-- `ReinforcementLearningAgent.get_state_hash`: `hash(str(sorted(...)))` is an
environmental value modelled as a raw natural number seed; the method reduces
it modulo `state_space_size`. -/
def ReinforcementLearningAgent.get_state_hash (s : ReinforcementLearningAgent)
    (raw : ℕ) : ℕ := raw % s.state_space_size

/-- Learning target of `ReinforcementLearningAgent.update_q_value`:
the reward when the episode is done, otherwise the reward plus the discounted
maximum of the next state's Q-row. -/
def qTarget (s : ReinforcementLearningAgent) (reward : ℚ) (next_state_hash : ℕ)
    (done : Bool) : ℚ :=
  if done then reward
  else reward + s.discount_factor * npMax (s.q_table.getD next_state_hash [])

/-- `ReinforcementLearningAgent.update_q_value` with the two state hashes
already computed: one-step Q-learning update on cell
`(state_hash, action)` followed by the epsilon decay
`epsilon = max(0.01, epsilon * epsilon_decay)`. -/
def ReinforcementLearningAgent.update_q_value (s : ReinforcementLearningAgent)
    (state_hash : ℕ) (action : ℕ) (reward : ℚ) (next_state_hash : ℕ) (done : Bool) :
    ReinforcementLearningAgent :=
  let target := qTarget s reward next_state_hash done
  let row := s.q_table.getD state_hash []
  let current_q := row.getD action 0
  { s with
    q_table := s.q_table.set state_hash
      (row.set action (current_q + s.learning_rate * (target - current_q)))
    epsilon := max (1/100) (s.epsilon * s.epsilon_decay) }

/-- Argument tuple of one `update_q_value` call:
(state_hash, action, reward, next_state_hash, done). -/
abbrev RLArgs := ℕ × ℕ × ℚ × ℕ × Bool

/-- Iterated `update_q_value` over a sequence of argument tuples. -/
def rlIter (s : ReinforcementLearningAgent) (l : List RLArgs) :
    ReinforcementLearningAgent :=
  l.foldl (fun st a => st.update_q_value a.1 a.2.1 a.2.2.1 a.2.2.2.1 a.2.2.2.2) s

/-- `ReinforcementLearningAgent.get_policy_strength`: variance of the Q-table
over its maximum, clamped to 1; exactly 0 when the maximum is 0. -/
def ReinforcementLearningAgent.get_policy_strength (q_table : List (List ℚ)) : ℚ :=
  let entries := q_table.flatten
  let q_variance := npVar entries
  let max_q := npMax entries
  if max_q = 0 then 0 else min 1 (q_variance / max_q)

/-- Input record of one `learn_from_experience` call: the fields the core
reads out of `experience_data`, plus explicit raise flags for the fallible
steps.  `constructRaises` models an exception while building the
`LearningExperience` (line 212); `dispatchRaises` one inside the strategy
dispatch `_apply_learning_updates` (line 224); `rlRaises` one inside
`_update_rl_agent`'s own body (caught there, line 286). -/
structure ExperienceInput where
  timestamp : String
  context_params : ParamMap
  context_hash_raw : ℕ
  action_taken_hash_raw : ℕ
  outcome_performance : ℚ
  outcome_gradients : ParamMap
  outcome_next_state_hash_raw : ℕ
  outcome_episode_done : Bool
  reward : ℚ
  confidence : ℚ
  constructRaises : Bool
  dispatchRaises : Bool
  rlRaises : Bool
  deriving Repr, DecidableEq

/-- The `LearningExperience` built by `learn_from_experience` from its input. -/
def mkExperience (inp : ExperienceInput) : LearningExperience :=
  { timestamp := inp.timestamp
    context_params := inp.context_params
    context_hash_raw := inp.context_hash_raw
    action_taken_hash_raw := inp.action_taken_hash_raw
    outcome_performance := inp.outcome_performance
    outcome_gradients := inp.outcome_gradients
    outcome_next_state_hash_raw := inp.outcome_next_state_hash_raw
    outcome_episode_done := inp.outcome_episode_done
    reward := inp.reward
    confidence := inp.confidence }

/-- state of `EnhancedAutonomousLearningCore`.
`learning_experiences = deque(maxlen=10000)`; `performance_metrics` is a
defaultdict of lists of `{value, timestamp}` entries, of which the learn path
only ever touches key `'overall'`. -/
structure EnhancedAutonomousLearningCore where
  gradient_optimizer : AdaptiveGradientDescent
  bayesian_optimizer : BayesianOptimizer
  rl_agent : ReinforcementLearningAgent
  learning_experiences : List LearningExperience
  performance_metrics_overall : List (ℚ × String)
  current_optimizer : String
  learning_iteration : ℕ
  last_performance : ℚ
  deriving DecidableEq

/-- `EnhancedAutonomousLearningCore.__init__` with an empty config (so
`learning_rate = 0.01` and the two-parameter Bayesian space of lines 193-196). -/
def EnhancedAutonomousLearningCore.init : EnhancedAutonomousLearningCore :=
  { gradient_optimizer := AdaptiveGradientDescent.init (1/100)
    bayesian_optimizer := BayesianOptimizer.init
      [("learning_rate", 1/1000, 1/10), ("confidence_threshold", 1/2, 19/20)]
    rl_agent := ReinforcementLearningAgent.init
    learning_experiences := []
    performance_metrics_overall := []
    current_optimizer := "gradient"
    learning_iteration := 0
    last_performance := 0 }

/-- Result of a `learn_from_experience` call: either the success dict with
fields `learning_iteration`, `performance_improvement`, `current_optimizer`,
`rl_policy_strength`, `confidence`, `timestamp`, or the failure dict
`{'error': msg, 'success': False}`. -/
inductive LearnResult where
  | ok (learning_iteration : ℕ) (performance_improvement : ℚ)
      (current_optimizer : String) (rl_policy_strength : ℚ)
      (confidence : ℚ) (timestamp : String)
  | err (msg : String)
  deriving Repr, DecidableEq

/-- Whether a `LearnResult` is the success dict (no `'success': False` field). -/
def LearnResult.isSuccess : LearnResult → Bool
  | .ok _ _ _ _ _ _ => true
  | .err _ => false

/-- The `learning_iteration` field of a success result (0 on a failure dict,
which carries none). -/
def LearnResult.iterationField : LearnResult → ℕ
  | .ok it _ _ _ _ _ => it
  | .err _ => 0

/-- `EnhancedAutonomousLearningCore._update_performance_metrics`: append
`{'value': outcome performance, 'timestamp': ...}` to
`performance_metrics['overall']`. -/
def updatePerformanceMetrics (s : EnhancedAutonomousLearningCore)
    (e : LearningExperience) : EnhancedAutonomousLearningCore :=
  { s with performance_metrics_overall :=
      s.performance_metrics_overall ++ [(e.outcome_performance, e.timestamp)] }

/-- `EnhancedAutonomousLearningCore._apply_learning_updates`: dispatch the
feedback to the currently selected optimizer, then compute the performance
improvement against `last_performance` and record the new last performance.
Returns the `performance_improvement` entry of the update-result dict together
with the new state. -/
def applyLearningUpdates (s : EnhancedAutonomousLearningCore)
    (e : LearningExperience) : ℚ × EnhancedAutonomousLearningCore :=
  let performance := e.outcome_performance
  let s1 :=
    if s.current_optimizer = "gradient" then
      { s with gradient_optimizer :=
          s.gradient_optimizer.update performance e.outcome_gradients }
    else if s.current_optimizer = "bayesian" then
      { s with bayesian_optimizer :=
          s.bayesian_optimizer.update e.context_params performance }
    else s
  (performance - s.last_performance, { s1 with last_performance := performance })

/-- `EnhancedAutonomousLearningCore._update_rl_agent`: hash the action into
the action space, hash the context and next state into the state space, and
run the Q-update; its whole body is wrapped in try/except, so a raise
(modelled by `rlRaises`) leaves the agent untouched and is swallowed. -/
def updateRLAgent (s : EnhancedAutonomousLearningCore) (inp : ExperienceInput) :
    EnhancedAutonomousLearningCore :=
  if inp.rlRaises then s
  else
    let action := inp.action_taken_hash_raw % s.rl_agent.action_space_size
    let agent :=
      s.rl_agent.update_q_value (s.rl_agent.get_state_hash inp.context_hash_raw)
        action inp.reward (s.rl_agent.get_state_hash inp.outcome_next_state_hash_raw)
        inp.outcome_episode_done
    { s with rl_agent := agent }

/-- `EnhancedAutonomousLearningCore.learn_from_experience`: build the
experience, append it to the bounded history, record the metric entry, run the
strategy dispatch and the (self-protected) RL update, build the success dict
from the pre-increment iteration counter, then increment the counter.  A raise
in experience construction or in the strategy dispatch aborts with the failure
dict, keeping every mutation already committed. -/
def learn_from_experience (s : EnhancedAutonomousLearningCore)
    (inp : ExperienceInput) : LearnResult × EnhancedAutonomousLearningCore :=
  if inp.constructRaises then (.err "experience construction failed", s)
  else
    let experience := mkExperience inp
    let hist := dequeAppend 10000 s.learning_experiences experience
    let s1 := { s with learning_experiences := hist }
    let s2 := updatePerformanceMetrics s1 experience
    if inp.dispatchRaises then (.err "strategy dispatch failed", s2)
    else
      let (performance_improvement, s3) := applyLearningUpdates s2 experience
      let s4 := updateRLAgent s3 inp
      let result := LearnResult.ok s4.learning_iteration performance_improvement
        s4.current_optimizer
        (ReinforcementLearningAgent.get_policy_strength s4.rl_agent.q_table)
        experience.confidence experience.timestamp
      (result, { s4 with learning_iteration := s4.learning_iteration + 1 })

/-! ### Helper lemmas about the bounded deque -/

lemma dequeAppend_eq {α : Type} (cap : ℕ) (l : List α) (x : α) :
    dequeAppend cap l x = (if l.length < cap then l else l.tail) ++ [x] := by
  unfold dequeAppend; split <;> rfl

lemma insertAll_append {α : Type} (cap : ℕ) (xs : List α) (x : α) :
    insertAll cap (xs ++ [x]) = dequeAppend cap (insertAll cap xs) x := by
  unfold insertAll; rw [List.foldl_append]; rfl

lemma insertAll_eq_drop {α : Type} (cap : ℕ) (hcap : 0 < cap) (xs : List α) :
    insertAll cap xs = xs.drop (xs.length - cap) := by
  induction xs using List.reverseRecOn with
  | nil => simp [insertAll]
  | append_singleton xs x ih =>
    rw [insertAll_append, ih, dequeAppend_eq]
    by_cases h : xs.length < cap
    · have h0 : xs.length - cap = 0 := by omega
      have h1 : (xs ++ [x]).length - cap = 0 := by simp; omega
      rw [h0, h1, List.drop_zero, List.drop_zero]
      simp [List.length_drop, h0, h]
    · have hle : cap ≤ xs.length := by omega
      have hlen : (xs.drop (xs.length - cap)).length = cap := by
        rw [List.length_drop]; omega
      rw [if_neg (by rw [hlen]; omega)]
      rw [List.tail_drop]
      have h2 : (xs ++ [x]).length - cap = xs.length - cap + 1 := by simp; omega
      rw [h2, ← List.drop_append_of_le_length (by omega)]

set_option maxRecDepth 40000 in
/-- C8 (counterexample): the claim as stated says that after inserting `C + k`
records into a bounded sequence of capacity `C`, the remaining elements are
the `k` most recent insertions.  At the gradient performance-window capacity
`C = 50` with `k = 1` (inserting the 51 records `0, …, 50`), the remaining 50
elements are `1, …, 50`, not the single most recent insertion `[50]`. -/
theorem C8_bounded_history_counterexample :
    ¬ (insertAll 50 (List.range 51) = (List.range 51).drop 50) := by decide

/-- C8 (amended): a bounded sequence of capacity `C > 0` never exceeds `C`
elements, and after inserting `C + k` records exactly `C` remain, namely the
`C` (not `k`) most recent insertions in their original relative order (the
`k` oldest ones are evicted). -/
theorem C8_bounded_history_amended {α : Type} (cap k : ℕ) (xs : List α)
    (hcap : 0 < cap) (hlen : xs.length = cap + k) :
    (∀ ys : List α, (insertAll cap ys).length ≤ cap) ∧
    (insertAll cap xs).length = cap ∧ insertAll cap xs = xs.drop k := by
  refine ⟨fun ys => ?_, ?_, ?_⟩
  · rw [insertAll_eq_drop cap hcap, List.length_drop]; omega
  · rw [insertAll_eq_drop cap hcap, List.length_drop]; omega
  · have h2 : xs.length - cap = k := by omega
    rw [insertAll_eq_drop cap hcap, h2]

/-- C8 (witness): capacity 2 with the 3 insertions `[0, 1, 2]`: exactly 2
elements remain, namely `[1, 2]`, the 2 most recent in order. -/
theorem C8_bounded_history_witness :
    (∀ ys : List ℕ, (insertAll 2 ys).length ≤ 2) ∧
    (insertAll 2 [0, 1, 2]).length = 2 ∧
    insertAll 2 [0, 1, 2] = [0, 1, 2].drop 1 :=
  C8_bounded_history_amended 2 1 [0, 1, 2] (by decide) (by decide)

/-! ### C1: policy strength -/

lemma listSum_nonneg (l : List ℚ) (h : ∀ x ∈ l, 0 ≤ x) : 0 ≤ listSum l := by
  induction l with
  | nil => simp [listSum]
  | cons a t ih =>
    have ha : 0 ≤ a := h a (by simp)
    have ht : 0 ≤ listSum t := ih (fun x hx => h x (by simp [hx]))
    show 0 ≤ a + listSum t
    exact add_nonneg ha ht

lemma npVar_nonneg (l : List ℚ) : 0 ≤ npVar l := by
  unfold npVar
  apply div_nonneg
  · apply listSum_nonneg
    intro x hx
    simp only [List.mem_map] at hx
    obtain ⟨y, _, rfl⟩ := hx
    positivity
  · positivity

/-- C1 (counterexample): on the Q-table `[[-1, -3]]` (variance 1, maximum −1)
`get_policy_strength` returns `min 1 (1 / -1) = -1`, which is not in `[0, 1]`,
refuting the claim as stated for arbitrary Q-tables. -/
theorem C1_policy_strength_counterexample :
    ¬ (0 ≤ ReinforcementLearningAgent.get_policy_strength [[-1, -3]] ∧
       ReinforcementLearningAgent.get_policy_strength [[-1, -3]] ≤ 1) := by
  have h : ReinforcementLearningAgent.get_policy_strength [[-1, -3]] = -1 := by
    norm_num [ReinforcementLearningAgent.get_policy_strength, npVar, npMax, listSum]
  rw [h]; norm_num

/-- C1 (amended): for every Q-table whose maximum entry is nonnegative — in
particular every table containing a zero entry, hence every table reachable
from the all-zero initial table by updates that leave any cell untouched —
`get_policy_strength` returns a value in `[0, 1]`, and it returns exactly 0
whenever the table's maximum is exactly 0 (so on an all-zero table). -/
theorem C1_policy_strength_range (q : List (List ℚ)) (h : 0 ≤ npMax q.flatten) :
    0 ≤ ReinforcementLearningAgent.get_policy_strength q ∧
    ReinforcementLearningAgent.get_policy_strength q ≤ 1 ∧
    (npMax q.flatten = 0 → ReinforcementLearningAgent.get_policy_strength q = 0) := by
  simp only [ReinforcementLearningAgent.get_policy_strength]
  by_cases hm : npMax q.flatten = 0
  · simp [hm]
  · rw [if_neg hm]
    refine ⟨le_min (by norm_num) (div_nonneg (npVar_nonneg _) h),
      min_le_left _ _, fun h0 => absurd h0 hm⟩

/-- C1 (witness): on the all-zero 1×1 Q-table the policy strength is in
`[0, 1]` and the zero-maximum case yields exactly 0. -/
theorem C1_policy_strength_witness :
    0 ≤ ReinforcementLearningAgent.get_policy_strength [[0]] ∧
    ReinforcementLearningAgent.get_policy_strength [[0]] ≤ 1 ∧
    (npMax ([[0]] : List (List ℚ)).flatten = 0 →
      ReinforcementLearningAgent.get_policy_strength [[0]] = 0) :=
  C1_policy_strength_range [[0]] (by norm_num [npMax])

/-! ### C4: epsilon decay -/

lemma update_q_value_epsilon (s : ReinforcementLearningAgent) (a b : ℕ) (r : ℚ)
    (n : ℕ) (d : Bool) :
    (s.update_q_value a b r n d).epsilon = max (1/100) (s.epsilon * s.epsilon_decay) := rfl

lemma update_q_value_epsilon_decay (s : ReinforcementLearningAgent) (a b : ℕ) (r : ℚ)
    (n : ℕ) (d : Bool) :
    (s.update_q_value a b r n d).epsilon_decay = s.epsilon_decay := rfl

lemma max_decay_step (c e d : ℚ) (hc : 0 ≤ c) (h0 : 0 ≤ d) (h1 : d ≤ 1) (n : ℕ) :
    max c (max c (e * d) * d ^ n) = max c (e * d ^ (n + 1)) := by
  rw [max_mul_of_nonneg _ _ (pow_nonneg h0 n)]
  rw [← max_assoc]
  have hcd : c * d ^ n ≤ c := mul_le_of_le_one_right hc (pow_le_one₀ h0 h1)
  rw [max_eq_left hcd, pow_succ]
  ring_nf

lemma rlIter_epsilon_of_ge (s : ReinforcementLearningAgent)
    (h0 : 0 ≤ s.epsilon_decay) (h1 : s.epsilon_decay ≤ 1)
    (he : 1/100 ≤ s.epsilon) (args : List RLArgs) :
    (rlIter s args).epsilon = max (1/100) (s.epsilon * s.epsilon_decay ^ args.length) := by
  induction args generalizing s with
  | nil =>
    show s.epsilon = max (1/100) (s.epsilon * s.epsilon_decay ^ (0 : ℕ))
    rw [pow_zero, mul_one, max_eq_right he]
  | cons a as ih =>
    show (rlIter (s.update_q_value a.1 a.2.1 a.2.2.1 a.2.2.2.1 a.2.2.2.2) as).epsilon = _
    set s1 := s.update_q_value a.1 a.2.1 a.2.2.1 a.2.2.2.1 a.2.2.2.2 with hs1
    have hd : s1.epsilon_decay = s.epsilon_decay := rfl
    have heps : s1.epsilon = max (1/100) (s.epsilon * s.epsilon_decay) := rfl
    rw [ih s1 (by rw [hd]; exact h0) (by rw [hd]; exact h1)
      (by rw [heps]; exact le_max_left _ _)]
    rw [hd, heps, List.length_cons]
    exact max_decay_step _ _ _ (by norm_num) h0 h1 as.length

/-- C4 (counterexample): the claim quantifies over every initial epsilon and
every K ≥ 0, but an agent constructed with `epsilon = 0.005 < 0.01` and
`epsilon_decay = 0.5` still has epsilon 0.005 after K = 0 updates, while the
claimed formula gives `max(0.01, 0.005 · 0.5^0) = 0.01`. -/
theorem C4_epsilon_decay_counterexample :
    ¬ ((rlIter
        { state_space_size := 1, action_space_size := 1, learning_rate := 1/10,
          discount_factor := 19/20, epsilon := 1/200, epsilon_decay := 1/2,
          q_table := [[0]], experience_buffer := [] } []).epsilon =
      max (1/100) ((1/200) * (1/2) ^ (([] : List RLArgs).length))) := by
  show ¬ ((1 : ℚ)/200 = max (1/100) ((1/200) * (1/2) ^ (0 : ℕ)))
  norm_num

/-- C4 (amended): for every RL agent with epsilon_decay d ∈ (0,1), after K
consecutive `update_q_value` calls (any argument sequence) the epsilon equals
`max(0.01, ε0 · d^K)` for every K ≥ 1; for K = 0 this additionally requires
ε0 ≥ 0.01 (true of the constructor default ε0 = 0.1), since an agent created
with ε0 < 0.01 keeps that epsilon until its first update. -/
theorem C4_epsilon_decay_amended (s : ReinforcementLearningAgent)
    (h0 : 0 < s.epsilon_decay) (h1 : s.epsilon_decay < 1) (args : List RLArgs)
    (hK : args ≠ [] ∨ 1/100 ≤ s.epsilon) :
    (rlIter s args).epsilon = max (1/100) (s.epsilon * s.epsilon_decay ^ args.length) := by
  rcases hK with hK | he
  · match args with
    | [] => exact absurd rfl hK
    | a :: as =>
      show (rlIter (s.update_q_value a.1 a.2.1 a.2.2.1 a.2.2.2.1 a.2.2.2.2) as).epsilon = _
      set s1 := s.update_q_value a.1 a.2.1 a.2.2.1 a.2.2.2.1 a.2.2.2.2 with hs1
      have hd : s1.epsilon_decay = s.epsilon_decay := rfl
      have heps : s1.epsilon = max (1/100) (s.epsilon * s.epsilon_decay) := rfl
      rw [rlIter_epsilon_of_ge s1 (by rw [hd]; exact h0.le) (by rw [hd]; exact h1.le)
        (by rw [heps]; exact le_max_left _ _)]
      rw [hd, heps, List.length_cons]
      exact max_decay_step _ _ _ (by norm_num) h0.le h1.le as.length
  · exact rlIter_epsilon_of_ge s h0.le h1.le he args

/-- C4 (witness): an agent with ε0 = 0.1 and d = 0.5 run through one update
has epsilon `max(0.01, 0.1 · 0.5) = 0.05`. -/
theorem C4_epsilon_decay_witness :
    (rlIter
      { state_space_size := 1, action_space_size := 1, learning_rate := 1/10,
        discount_factor := 19/20, epsilon := 1/10, epsilon_decay := 1/2,
        q_table := [[0]], experience_buffer := [] } [(0, 0, 1, 0, true)]).epsilon =
    max (1/100) ((1/10) * (1/2) ^ (([(0, 0, 1, 0, true)] : List RLArgs).length)) :=
  C4_epsilon_decay_amended _ (by norm_num) (by norm_num) _ (Or.inl (by simp))

/-! ### C6: Bayesian best-score monotonicity -/

lemma bayes_update_best_score_le (s : BayesianOptimizer) (p : ParamMap) (perf : ℚ) :
    s.best_score ≤ (s.update p perf).best_score := by
  by_cases h : s.best_score < (perf : WithBot ℚ)
  · simp only [BayesianOptimizer.update, if_pos h]
    exact le_of_lt h
  · simp only [BayesianOptimizer.update, if_neg h]
    exact le_refl _

lemma bayesIter_best_score_le (s : BayesianOptimizer) (l : List (ParamMap × ℚ)) :
    s.best_score ≤ (bayesIter s l).best_score := by
  induction l generalizing s with
  | nil => exact le_refl _
  | cons a t ih =>
    calc s.best_score ≤ (s.update a.1 a.2).best_score := bayes_update_best_score_le s a.1 a.2
    _ ≤ (bayesIter (s.update a.1 a.2) t).best_score := ih (s.update a.1 a.2)

/-- C6: `best_score` is monotonically non-decreasing across every sequence of
Bayesian updates, and a single update whose observed performance is not
strictly greater than the current `best_score` (in particular one exactly
equal to it) changes neither `best_score` nor `best_params`. -/
theorem C6_best_score_mono (s : BayesianOptimizer) (l : List (ParamMap × ℚ))
    (p : ParamMap) (perf : ℚ) :
    s.best_score ≤ (bayesIter s l).best_score ∧
    (¬ s.best_score < (perf : WithBot ℚ) →
      (s.update p perf).best_score = s.best_score ∧
      (s.update p perf).best_params = s.best_params) := by
  refine ⟨bayesIter_best_score_le s l, fun h => ?_⟩
  simp only [BayesianOptimizer.update, if_neg h]
  constructor <;> trivial

/-- Concrete Bayesian state for the C6 witness. -/
def witBayes : BayesianOptimizer :=
  { parameter_space := [("learning_rate", 0, 1)]
    observations := [1]
    parameter_history := [[("learning_rate", 1)]]
    best_params := some [("learning_rate", 1)]
    best_score := ((1 : ℚ) : WithBot ℚ) }

/-- C6 (witness): on a state whose best score is 1, a sequence of updates does
not lower the best score, and an update observing performance exactly 1
changes neither the best score nor the best parameters. -/
theorem C6_best_score_mono_witness :
    witBayes.best_score ≤ (bayesIter witBayes [([], 2)]).best_score ∧
    (witBayes.update [] 1).best_score = witBayes.best_score ∧
    (witBayes.update [] 1).best_params = witBayes.best_params :=
  ⟨(C6_best_score_mono witBayes [([], 2)] [] 1).1,
   (C6_best_score_mono witBayes [([], 2)] [] 1).2 (lt_irrefl _)⟩

/-! ### C9: the Q-learning update -/

lemma getD_set_self {α : Type} (l : List α) (i : ℕ) (a d : α) (h : i < l.length) :
    (l.set i a).getD i d = a := by
  induction l generalizing i with
  | nil => simp at h
  | cons x t ih =>
    cases i with
    | zero => rfl
    | succ n =>
      show (t.set n a).getD n d = a
      exact ih n (by simpa using h)

lemma getD_set_ne {α : Type} (l : List α) (i j : ℕ) (a d : α) (h : i ≠ j) :
    (l.set i a).getD j d = l.getD j d := by
  induction l generalizing i j with
  | nil => rfl
  | cons x t ih =>
    cases i with
    | zero =>
      cases j with
      | zero => exact absurd rfl h
      | succ m => rfl
    | succ n =>
      cases j with
      | zero => rfl
      | succ m =>
        show (t.set n a).getD m d = t.getD m d
        exact ih n m (fun hh => h (by rw [hh]))

/-- C9: with valid state and action indices, the Q-learning target is exactly
the reward on a terminal transition and `reward + discount_factor * max`
of the next state's row otherwise, and the update changes exactly the cell
`(state_hash, action)` of the Q-table, moving it by
`learning_rate * (target - old)`. -/
theorem C9_q_value_update (s : ReinforcementLearningAgent) (sh act : ℕ)
    (reward : ℚ) (nh : ℕ) (done : Bool)
    (hs : sh < s.q_table.length) (ha : act < (s.q_table.getD sh []).length) :
    qTarget s reward nh true = reward ∧
    qTarget s reward nh false =
      reward + s.discount_factor * npMax (s.q_table.getD nh []) ∧
    ∀ i j : ℕ,
      ((s.update_q_value sh act reward nh done).q_table.getD i []).getD j 0 =
        if i = sh ∧ j = act then
          (s.q_table.getD sh []).getD act 0 +
            s.learning_rate *
              (qTarget s reward nh done - (s.q_table.getD sh []).getD act 0)
        else (s.q_table.getD i []).getD j 0 := by
  refine ⟨rfl, rfl, fun i j => ?_⟩
  have hq : (s.update_q_value sh act reward nh done).q_table =
      s.q_table.set sh ((s.q_table.getD sh []).set act
        ((s.q_table.getD sh []).getD act 0 +
          s.learning_rate *
            (qTarget s reward nh done - (s.q_table.getD sh []).getD act 0))) := rfl
  rw [hq]
  by_cases hi : i = sh
  · subst hi
    rw [getD_set_self _ _ _ _ hs]
    by_cases hj : j = act
    · subst hj
      rw [getD_set_self _ _ _ _ ha, if_pos ⟨rfl, rfl⟩]
    · rw [getD_set_ne _ _ _ _ _ (fun hh => hj hh.symm), if_neg (by tauto)]
  · rw [getD_set_ne _ _ _ _ _ (fun hh => hi hh.symm), if_neg (by tauto)]

/-- Concrete RL agent for witnesses: a 1×1 zero Q-table. -/
def witAgent : ReinforcementLearningAgent :=
  { state_space_size := 1
    action_space_size := 1
    learning_rate := 1/10
    discount_factor := 19/20
    epsilon := 1/10
    epsilon_decay := 199/200
    q_table := [[0]]
    experience_buffer := [] }

/-- C9 (witness): the update on the 1×1 zero table at cell (0,0) with reward 1
and a non-terminal transition follows the stated cell-wise description. -/
theorem C9_q_value_update_witness :
    qTarget witAgent 1 0 true = 1 ∧
    qTarget witAgent 1 0 false =
      1 + witAgent.discount_factor * npMax (witAgent.q_table.getD 0 []) ∧
    ∀ i j : ℕ,
      ((witAgent.update_q_value 0 0 1 0 false).q_table.getD i []).getD j 0 =
        if i = 0 ∧ j = 0 then
          (witAgent.q_table.getD 0 []).getD 0 0 +
            witAgent.learning_rate *
              (qTarget witAgent 1 0 false - (witAgent.q_table.getD 0 []).getD 0 0)
        else (witAgent.q_table.getD i []).getD j 0 :=
  C9_q_value_update witAgent 0 0 1 0 false (by decide) (by decide)

/-! ### C5: adaptive gradient learning rate -/

lemma dequeAppend_getD_last (cap : ℕ) (l : List ℚ) (x : ℚ) :
    (dequeAppend cap l x).getD ((dequeAppend cap l x).length - 1) 0 = x := by
  rw [dequeAppend_eq]
  set l' := if l.length < cap then l else l.tail with hl'
  have hlen : (l' ++ [x]).length - 1 = l'.length := by simp
  rw [hlen, List.getD_append_right _ _ _ _ (le_refl _)]
  simp

lemma dequeAppend_getD_penult (cap : ℕ) (hcap : 2 ≤ cap) (l : List ℚ)
    (hl : l ≠ []) (x : ℚ) :
    (dequeAppend cap l x).getD ((dequeAppend cap l x).length - 2) 0 =
      l.getD (l.length - 1) 0 := by
  have hpos : 1 ≤ l.length := List.length_pos.mpr hl
  rw [dequeAppend_eq]
  by_cases h : l.length < cap
  · rw [if_pos h]
    have h2 : (l ++ [x]).length - 2 = l.length - 1 := by simp
    rw [h2, List.getD_append _ _ _ _ (by omega)]
  · rw [if_neg h]
    have hge2 : 2 ≤ l.length := by omega
    have htl : l.tail.length = l.length - 1 := List.length_tail l
    have h2 : (l.tail ++ [x]).length - 2 = l.tail.length - 1 := by simp
    rw [h2, List.getD_append _ _ _ _ (by omega)]
    cases l with
    | nil => exact absurd rfl hl
    | cons a t =>
      show t.getD (t.length - 1) 0 = (a :: t).getD ((a :: t).length - 1) 0
      have ht1 : 1 ≤ t.length := by simp at hge2; omega
      have h3 : (a :: t).length - 1 = (t.length - 1) + 1 := by simp; omega
      rw [h3, List.getD_cons_succ]

lemma gradUpdate_base (s : AdaptiveGradientDescent) (p : ℚ) (g : ParamMap) :
    (s.update p g).base_learning_rate = s.base_learning_rate := rfl

lemma gradUpdate_adaptive (s : AdaptiveGradientDescent) (p : ℚ) (g : ParamMap) :
    (s.update p g).adaptive_factor = s.adaptive_factor := rfl

lemma gradUpdate_decay (s : AdaptiveGradientDescent) (p : ℚ) (g : ParamMap) :
    (s.update p g).decay_factor = s.decay_factor := rfl

lemma gradUpdate_learning_rate (s : AdaptiveGradientDescent) (p : ℚ) (g : ParamMap)
    (hl : s.performance_history ≠ []) :
    (s.update p g).learning_rate =
      if s.performance_history.getD (s.performance_history.length - 1) 0 < p then
        min (s.learning_rate * s.adaptive_factor) (s.base_learning_rate * 2)
      else s.learning_rate * s.decay_factor := by
  have hpos : 1 ≤ s.performance_history.length := List.length_pos.mpr hl
  have hlast := dequeAppend_getD_last 50 s.performance_history p
  have hpen := dequeAppend_getD_penult 50 (by norm_num) s.performance_history hl p
  have hn : 2 ≤ (dequeAppend 50 s.performance_history p).length := by
    rw [dequeAppend_eq]
    by_cases h : s.performance_history.length < 50 <;>
      simp [h, List.length_tail] <;> omega
  show (if 2 ≤ (dequeAppend 50 s.performance_history p).length then
          if (dequeAppend 50 s.performance_history p).getD
                ((dequeAppend 50 s.performance_history p).length - 2) 0 <
              (dequeAppend 50 s.performance_history p).getD
                ((dequeAppend 50 s.performance_history p).length - 1) 0 then
            min (s.learning_rate * s.adaptive_factor) (s.base_learning_rate * 2)
          else s.learning_rate * s.decay_factor
        else s.learning_rate) = _
  rw [if_pos hn, hlast, hpen]

lemma gradUpdate_learning_rate_of_nil (s : AdaptiveGradientDescent) (p : ℚ)
    (g : ParamMap) (hl : s.performance_history = []) :
    (s.update p g).learning_rate = s.learning_rate := by
  show (if 2 ≤ (dequeAppend 50 s.performance_history p).length then
          if (dequeAppend 50 s.performance_history p).getD
                ((dequeAppend 50 s.performance_history p).length - 2) 0 <
              (dequeAppend 50 s.performance_history p).getD
                ((dequeAppend 50 s.performance_history p).length - 1) 0 then
            min (s.learning_rate * s.adaptive_factor) (s.base_learning_rate * 2)
          else s.learning_rate * s.decay_factor
        else s.learning_rate) = _
  rw [hl]
  norm_num [dequeAppend]

/-- Invariant of the gradient optimizer: a positive learning rate bounded by
twice the base learning rate. -/
def GradInv (s : AdaptiveGradientDescent) : Prop :=
  0 < s.learning_rate ∧ s.learning_rate ≤ 2 * s.base_learning_rate

lemma gradUpdate_inv (s : AdaptiveGradientDescent) (p : ℚ) (g : ParamMap)
    (haf : 1 < s.adaptive_factor) (hd0 : 0 < s.decay_factor)
    (hd1 : s.decay_factor < 1) (h : GradInv s) : GradInv (s.update p g) := by
  obtain ⟨h1, h2⟩ := h
  unfold GradInv
  rw [gradUpdate_base]
  by_cases hl : s.performance_history = []
  · rw [gradUpdate_learning_rate_of_nil s p g hl]
    exact ⟨h1, h2⟩
  · rw [gradUpdate_learning_rate s p g hl]
    split
    · refine ⟨lt_min (mul_pos h1 (lt_trans zero_lt_one haf)) (by linarith), ?_⟩
      calc min (s.learning_rate * s.adaptive_factor) (s.base_learning_rate * 2) ≤
          s.base_learning_rate * 2 := min_le_right _ _
      _ = 2 * s.base_learning_rate := by ring
    · refine ⟨mul_pos h1 hd0, ?_⟩
      have hle : s.learning_rate * s.decay_factor ≤ s.learning_rate * 1 :=
        mul_le_mul_of_nonneg_left hd1.le h1.le
      linarith

lemma gradIter_fields (s : AdaptiveGradientDescent) (l : List (ℚ × ParamMap)) :
    (gradIter s l).base_learning_rate = s.base_learning_rate ∧
    (gradIter s l).adaptive_factor = s.adaptive_factor ∧
    (gradIter s l).decay_factor = s.decay_factor := by
  induction l generalizing s with
  | nil => exact ⟨rfl, rfl, rfl⟩
  | cons a t ih => exact ih (s.update a.1 a.2)

lemma gradIter_inv (s : AdaptiveGradientDescent) (l : List (ℚ × ParamMap))
    (haf : 1 < s.adaptive_factor) (hd0 : 0 < s.decay_factor)
    (hd1 : s.decay_factor < 1) (h : GradInv s) : GradInv (gradIter s l) := by
  induction l generalizing s with
  | nil => exact h
  | cons a t ih =>
    exact ih (s.update a.1 a.2) haf hd0 hd1 (gradUpdate_inv s a.1 a.2 haf hd0 hd1 h)

/-- C5: starting the gradient strategy with `learning_rate = base_learning_rate
> 0`, `adaptive_factor > 1` and `decay_factor ∈ (0,1)`, after any sequence
of updates the learning rate never exceeds `2 * base_learning_rate`; and any
further update whose newly observed performance strictly exceeds the
previously observed one does not decrease the learning rate. -/
theorem C5_gradient_learning_rate (s0 : AdaptiveGradientDescent)
    (updates : List (ℚ × ParamMap))
    (hinit : s0.learning_rate = s0.base_learning_rate)
    (hb : 0 < s0.base_learning_rate) (haf : 1 < s0.adaptive_factor)
    (hd0 : 0 < s0.decay_factor) (hd1 : s0.decay_factor < 1) :
    (gradIter s0 updates).learning_rate ≤ 2 * s0.base_learning_rate ∧
    ∀ p g, (gradIter s0 updates).performance_history ≠ [] →
      (gradIter s0 updates).performance_history.getD
        ((gradIter s0 updates).performance_history.length - 1) 0 < p →
      (gradIter s0 updates).learning_rate ≤
        ((gradIter s0 updates).update p g).learning_rate := by
  have hfields := gradIter_fields s0 updates
  have hinv : GradInv (gradIter s0 updates) :=
    gradIter_inv s0 updates haf hd0 hd1 ⟨by rw [hinit]; exact hb, by rw [hinit]; linarith⟩
  constructor
  · rw [← hfields.1]
    exact hinv.2
  · intro p g hne hlt
    rw [gradUpdate_learning_rate _ p g hne, if_pos hlt]
    refine le_min ?_ ?_
    · have haf1 : 1 ≤ (gradIter s0 updates).adaptive_factor := by
        rw [hfields.2.1]; exact haf.le
      exact le_mul_of_one_le_right hinv.1.le haf1
    · have h2b := hinv.2
      linarith

/-- C5 (witness): the default-configured optimizer (`base = 0.01`,
`adaptive_factor = 1.1`, `decay_factor = 0.95`) run through the performance
sequence 1, 2 keeps its learning rate at or below `2 × 0.01` and does not
decrease it on a further strictly improving observation. -/
theorem C5_gradient_learning_rate_witness :
    (gradIter (AdaptiveGradientDescent.init (1/100)) [(1, []), (2, [])]).learning_rate ≤
      2 * (AdaptiveGradientDescent.init (1/100)).base_learning_rate ∧
    ∀ p g,
      (gradIter (AdaptiveGradientDescent.init (1/100)) [(1, []), (2, [])]).performance_history ≠ [] →
      (gradIter (AdaptiveGradientDescent.init (1/100)) [(1, []), (2, [])]).performance_history.getD
        ((gradIter (AdaptiveGradientDescent.init (1/100)) [(1, []), (2, [])]).performance_history.length - 1) 0 < p →
      (gradIter (AdaptiveGradientDescent.init (1/100)) [(1, []), (2, [])]).learning_rate ≤
        ((gradIter (AdaptiveGradientDescent.init (1/100)) [(1, []), (2, [])]).update p g).learning_rate :=
  C5_gradient_learning_rate (AdaptiveGradientDescent.init (1/100)) [(1, []), (2, [])]
    rfl (by norm_num [AdaptiveGradientDescent.init])
    (by norm_num [AdaptiveGradientDescent.init])
    (by norm_num [AdaptiveGradientDescent.init])
    (by norm_num [AdaptiveGradientDescent.init])

/-! ### C7: proposed parameters stay in bounds -/

lemma lookupPS_mem (name : String) (space : List (String × ℚ × ℚ)) (lo hi : ℚ)
    (h : lookupPS name space = some (lo, hi)) : (name, lo, hi) ∈ space := by
  induction space with
  | nil => simp [lookupPS] at h
  | cons t rest ih =>
    obtain ⟨k, v⟩ := t
    simp only [lookupPS] at h
    by_cases hk : name = k
    · rw [if_pos hk] at h
      have hv : v = (lo, hi) := by injection h
      rw [hk, hv]
      exact List.mem_cons_self _ _
    · rw [if_neg hk] at h
      exact List.mem_cons_of_mem _ (ih h)

lemma mem_lookupPS_isSome (name : String) (space : List (String × ℚ × ℚ)) (lo hi : ℚ)
    (h : (name, lo, hi) ∈ space) : (lookupPS name space).isSome := by
  induction space with
  | nil => simp at h
  | cons t rest ih =>
    obtain ⟨k, v⟩ := t
    simp only [lookupPS]
    by_cases hk : name = k
    · rw [if_pos hk]; rfl
    · rw [if_neg hk]
      rcases List.mem_cons.mp h with h1 | h1
      · exact absurd (congrArg Prod.fst h1) hk
      · exact ih h1

lemma randomSampleAux_bounds (u : ℕ → ℚ) (Hu : ∀ j, 0 ≤ u j ∧ u j ≤ 1) :
    ∀ space : List (String × ℚ × ℚ), (∀ t ∈ space, t.2.1 ≤ t.2.2) →
      ∀ i : ℕ, ∀ q ∈ randomSampleAux u i space,
        ∃ lo hi, (q.1, lo, hi) ∈ space ∧ lo ≤ q.2 ∧ q.2 ≤ hi := by
  intro space
  induction space with
  | nil => intro _ i q hq; simp [randomSampleAux] at hq
  | cons t rest ih =>
    obtain ⟨name, lo, hi⟩ := t
    intro Hb i q hq
    rcases List.mem_cons.mp hq with hq | hq
    · subst hq
      have hlohi : lo ≤ hi := by simpa using Hb (name, lo, hi) (List.mem_cons_self _ _)
      have hu := Hu i
      refine ⟨lo, hi, List.mem_cons_self _ _, ?_, ?_⟩
      · show lo ≤ lo + u i * (hi - lo)
        have : 0 ≤ u i * (hi - lo) := mul_nonneg hu.1 (by linarith)
        linarith
      · show lo + u i * (hi - lo) ≤ hi
        have : u i * (hi - lo) ≤ hi - lo := mul_le_of_le_one_left (by linarith) hu.2
        linarith
    · obtain ⟨lo', hi', hmem, h1, h2⟩ :=
        ih (fun t ht => Hb t (List.mem_cons_of_mem _ ht)) (i + 1) q hq
      exact ⟨lo', hi', List.mem_cons_of_mem _ hmem, h1, h2⟩

lemma ucbPerturbAux_bounds (space : List (String × ℚ × ℚ)) (g : ℕ → ℚ)
    (Hb : ∀ t ∈ space, t.2.1 ≤ t.2.2) :
    ∀ bp : ParamMap, ∀ i : ℕ, (∀ q ∈ bp, (lookupPS q.1 space).isSome) →
      ∃ ps, ucbPerturbAux space g i bp = some ps ∧
        ∀ q ∈ ps, ∃ lo hi, (q.1, lo, hi) ∈ space ∧ lo ≤ q.2 ∧ q.2 ≤ hi := by
  intro bp
  induction bp with
  | nil => exact fun i _ => ⟨[], rfl, by simp⟩
  | cons t rest ih =>
    obtain ⟨name, v⟩ := t
    intro i Hk
    have hks : (lookupPS name space).isSome := Hk (name, v) (List.mem_cons_self _ _)
    obtain ⟨⟨lo, hi⟩, hlk⟩ := Option.isSome_iff_exists.mp hks
    obtain ⟨ps, hps, hbounds⟩ := ih (i + 1) (fun q hq => Hk q (List.mem_cons_of_mem _ hq))
    refine ⟨(name, npClip (v + g i) lo hi) :: ps, ?_, ?_⟩
    · show ucbPerturbAux space g i ((name, v) :: rest) = _
      unfold ucbPerturbAux
      rw [hlk, hps]
    · intro q hq
      rcases List.mem_cons.mp hq with hq | hq
      · subst hq
        have hmem := lookupPS_mem name space lo hi hlk
        have hlohi : lo ≤ hi := by simpa using Hb (name, lo, hi) hmem
        exact ⟨lo, hi, hmem, le_min (le_max_right _ _) hlohi, min_le_right _ _⟩
      · exact hbounds q hq

/-- C7: provided every declared bound satisfies `min ≤ max`, the uniform draws
are unit-interval samples, and (when set) every best-parameter key appears in
the declared parameter space, `get_next_parameters` takes the uniform-random
cold-start path exactly when fewer than 3 observations exist, and in every
case — cold start or Gaussian-perturbation path, for every draw — it succeeds
and each returned parameter value lies within that parameter's declared
`[min, max]` bounds. -/
theorem C7_next_parameters_in_bounds (s : BayesianOptimizer) (u g : ℕ → ℚ)
    (Hb : ∀ t ∈ s.parameter_space, t.2.1 ≤ t.2.2)
    (Hu : ∀ j, 0 ≤ u j ∧ u j ≤ 1)
    (Hk : ∀ bp, s.best_params = some bp →
      ∀ q ∈ bp, (lookupPS q.1 s.parameter_space).isSome) :
    (s.observations.length < 3 →
      s.get_next_parameters u g = some (randomSample s.parameter_space u)) ∧
    (¬ s.observations.length < 3 →
      s.get_next_parameters u g = ucbAcquisition s u g) ∧
    ∃ ps, s.get_next_parameters u g = some ps ∧
      ∀ q ∈ ps, ∃ lo hi, (q.1, lo, hi) ∈ s.parameter_space ∧ lo ≤ q.2 ∧ q.2 ≤ hi := by
  refine ⟨fun h => by simp [BayesianOptimizer.get_next_parameters, h],
          fun h => by simp [BayesianOptimizer.get_next_parameters, h], ?_⟩
  by_cases h : s.observations.length < 3
  · refine ⟨randomSample s.parameter_space u,
      by simp [BayesianOptimizer.get_next_parameters, h], ?_⟩
    exact fun q hq => randomSampleAux_bounds u Hu s.parameter_space Hb 0 q hq
  · have hpath : s.get_next_parameters u g = ucbAcquisition s u g := by
      simp [BayesianOptimizer.get_next_parameters, h]
    rw [hpath]
    unfold ucbAcquisition
    cases hbp : s.best_params with
    | none =>
      have hkeys : ∀ q ∈ randomSample s.parameter_space u,
          (lookupPS q.1 s.parameter_space).isSome := by
        intro q hq
        obtain ⟨lo, hi, hmem, _, _⟩ :=
          randomSampleAux_bounds u Hu s.parameter_space Hb 0 q hq
        exact mem_lookupPS_isSome q.1 s.parameter_space lo hi hmem
      obtain ⟨ps, hps, hbounds⟩ := ucbPerturbAux_bounds s.parameter_space g Hb
        (randomSample s.parameter_space u) 0 hkeys
      exact ⟨ps, hps, hbounds⟩
    | some bp =>
      obtain ⟨ps, hps, hbounds⟩ := ucbPerturbAux_bounds s.parameter_space g Hb
        bp 0 (Hk bp hbp)
      exact ⟨ps, hps, hbounds⟩

/-- Concrete Bayesian state for the C7 witness: three observations recorded,
so the perturbation path is taken; the best parameter 0.5 perturbed by noise
7 is clipped back into its declared bounds `[0, 1]`. -/
def witBayes7 : BayesianOptimizer :=
  { parameter_space := [("learning_rate", 0, 1)]
    observations := [1, 2, 3]
    parameter_history := [[("learning_rate", 1/2)]]
    best_params := some [("learning_rate", 1/2)]
    best_score := ((3 : ℚ) : WithBot ℚ) }

/-- C7 (witness): on `witBayes7` with constant draws `u = 1/2`, `g = 7`, the
three conjuncts of the bounds theorem hold. -/
theorem C7_next_parameters_in_bounds_witness :
    (witBayes7.observations.length < 3 →
      witBayes7.get_next_parameters (fun _ => 1/2) (fun _ => 7) =
        some (randomSample witBayes7.parameter_space (fun _ => 1/2))) ∧
    (¬ witBayes7.observations.length < 3 →
      witBayes7.get_next_parameters (fun _ => 1/2) (fun _ => 7) =
        ucbAcquisition witBayes7 (fun _ => 1/2) (fun _ => 7)) ∧
    ∃ ps, witBayes7.get_next_parameters (fun _ => 1/2) (fun _ => 7) = some ps ∧
      ∀ q ∈ ps, ∃ lo hi, (q.1, lo, hi) ∈ witBayes7.parameter_space ∧
        lo ≤ q.2 ∧ q.2 ≤ hi :=
  C7_next_parameters_in_bounds witBayes7 (fun _ => 1/2) (fun _ => 7)
    (by intro t ht; simp [witBayes7] at ht; rw [ht]; norm_num)
    (by intro j; norm_num)
    (by intro bp hbp q hq
        simp only [witBayes7] at hbp
        injection hbp with hbp
        rw [← hbp] at hq
        rcases List.mem_cons.mp hq with h1 | h1
        · rw [h1]; rfl
        · simp at h1)

/-! ### C2, C3, C10: learn_from_experience control flow -/

lemma applyLearningUpdates_preserves (s : EnhancedAutonomousLearningCore)
    (e : LearningExperience) :
    (applyLearningUpdates s e).2.learning_iteration = s.learning_iteration ∧
    (applyLearningUpdates s e).2.learning_experiences = s.learning_experiences ∧
    (applyLearningUpdates s e).2.performance_metrics_overall =
      s.performance_metrics_overall ∧
    (applyLearningUpdates s e).2.current_optimizer = s.current_optimizer ∧
    (applyLearningUpdates s e).2.rl_agent = s.rl_agent := by
  simp only [applyLearningUpdates]
  split_ifs <;> exact ⟨rfl, rfl, rfl, rfl, rfl⟩

lemma updateRLAgent_preserves (s : EnhancedAutonomousLearningCore)
    (inp : ExperienceInput) :
    (updateRLAgent s inp).learning_iteration = s.learning_iteration ∧
    (updateRLAgent s inp).learning_experiences = s.learning_experiences ∧
    (updateRLAgent s inp).performance_metrics_overall =
      s.performance_metrics_overall ∧
    (updateRLAgent s inp).current_optimizer = s.current_optimizer := by
  simp only [updateRLAgent]
  split_ifs <;> exact ⟨rfl, rfl, rfl, rfl⟩

lemma learn_from_experience_construct_eq (s : EnhancedAutonomousLearningCore)
    (inp : ExperienceInput) (hc : inp.constructRaises = true) :
    learn_from_experience s inp = (.err "experience construction failed", s) := by
  unfold learn_from_experience
  rw [hc]
  rfl

lemma learn_from_experience_dispatch_eq (s : EnhancedAutonomousLearningCore)
    (inp : ExperienceInput) (hc : inp.constructRaises = false)
    (hd : inp.dispatchRaises = true) :
    learn_from_experience s inp =
      (.err "strategy dispatch failed",
       updatePerformanceMetrics
         { s with learning_experiences :=
             dequeAppend 10000 s.learning_experiences (mkExperience inp) }
         (mkExperience inp)) := by
  unfold learn_from_experience
  rw [hc, hd]
  rfl

lemma learn_from_experience_success_eq (s : EnhancedAutonomousLearningCore)
    (inp : ExperienceInput) (hc : inp.constructRaises = false)
    (hd : inp.dispatchRaises = false) :
    learn_from_experience s inp =
      (let e := mkExperience inp
       let s2 := updatePerformanceMetrics
         { s with learning_experiences :=
             dequeAppend 10000 s.learning_experiences e } e
       let pr := applyLearningUpdates s2 e
       let s4 := updateRLAgent pr.2 inp
       (LearnResult.ok s4.learning_iteration pr.1 s4.current_optimizer
          (ReinforcementLearningAgent.get_policy_strength s4.rl_agent.q_table)
          e.confidence e.timestamp,
        { s4 with learning_iteration := s4.learning_iteration + 1 })) := by
  unfold learn_from_experience
  rw [hc, hd]
  rfl

/-- C2: the engine's learning_iteration counter ends at exactly old value + 1
when `learn_from_experience` returns a success result and stays unchanged when
it returns a failure result; and whenever neither the experience construction
nor the strategy dispatch raises, the call succeeds — a raise confined to the
RL-agent update (`rlRaises`, swallowed by its own try/except) never fails the
call nor prevents the increment. -/
theorem C2_iteration_per_call (s : EnhancedAutonomousLearningCore)
    (inp : ExperienceInput) :
    ((learn_from_experience s inp).2.learning_iteration =
      if (learn_from_experience s inp).1.isSuccess = true then
        s.learning_iteration + 1
      else s.learning_iteration) ∧
    (inp.constructRaises = false → inp.dispatchRaises = false →
      (learn_from_experience s inp).1.isSuccess = true) := by
  cases hc : inp.constructRaises with
  | true =>
    rw [learn_from_experience_construct_eq s inp hc]
    refine ⟨by simp [LearnResult.isSuccess], fun h _ => by simp [hc] at h⟩
  | false =>
    cases hd : inp.dispatchRaises with
    | true =>
      rw [learn_from_experience_dispatch_eq s inp hc hd]
      refine ⟨by simp [LearnResult.isSuccess, updatePerformanceMetrics],
        fun _ h => by simp [hd] at h⟩
    | false =>
      rw [learn_from_experience_success_eq s inp hc hd]
      refine ⟨?_, fun _ _ => rfl⟩
      show (updateRLAgent
          (applyLearningUpdates
            (updatePerformanceMetrics
              { s with learning_experiences :=
                  dequeAppend 10000 s.learning_experiences (mkExperience inp) }
              (mkExperience inp)) (mkExperience inp)).2 inp).learning_iteration + 1 =
        s.learning_iteration + 1
      rw [(updateRLAgent_preserves _ inp).1, (applyLearningUpdates_preserves _ _).1]
      rfl

/-- C3: when the experience construction raises, `learn_from_experience`
returns the structured failure dict and leaves the state fully untouched;
when the strategy dispatch raises, it returns the structured failure dict with
the iteration counter unchanged, but the experience already appended to the
bounded history and the entry already appended to
`performance_metrics['overall']` are kept (no rollback). -/
theorem C3_failure_semantics (s : EnhancedAutonomousLearningCore)
    (inp : ExperienceInput) :
    (inp.constructRaises = true →
      (learn_from_experience s inp).1 = .err "experience construction failed" ∧
      (learn_from_experience s inp).1.isSuccess = false ∧
      (learn_from_experience s inp).2 = s) ∧
    (inp.constructRaises = false → inp.dispatchRaises = true →
      (learn_from_experience s inp).1 = .err "strategy dispatch failed" ∧
      (learn_from_experience s inp).1.isSuccess = false ∧
      (learn_from_experience s inp).2.learning_iteration = s.learning_iteration ∧
      (learn_from_experience s inp).2.learning_experiences =
        dequeAppend 10000 s.learning_experiences (mkExperience inp) ∧
      (learn_from_experience s inp).2.performance_metrics_overall =
        s.performance_metrics_overall ++ [(inp.outcome_performance, inp.timestamp)]) := by
  constructor
  · intro hc
    rw [learn_from_experience_construct_eq s inp hc]
    exact ⟨rfl, rfl, rfl⟩
  · intro hc hd
    rw [learn_from_experience_dispatch_eq s inp hc hd]
    exact ⟨rfl, rfl, rfl, rfl, rfl⟩

/-- C10: on a successful call the `learning_iteration` field of the returned
result dict is the counter value from before the call — the counter is
incremented only after the result is built — while the stored counter ends at
that value plus one; so the first successful call of a fresh engine reports 0
and leaves the internal counter at 1. -/
theorem C10_reported_iteration (s : EnhancedAutonomousLearningCore)
    (inp : ExperienceInput) (it : ℕ) (pi : ℚ) (co : String) (ps c : ℚ)
    (ts : String)
    (h : (learn_from_experience s inp).1 = .ok it pi co ps c ts) :
    it = s.learning_iteration ∧
    (learn_from_experience s inp).2.learning_iteration = s.learning_iteration + 1 := by
  cases hc : inp.constructRaises with
  | true =>
    rw [learn_from_experience_construct_eq s inp hc] at h
    cases h
  | false =>
    cases hd : inp.dispatchRaises with
    | true =>
      rw [learn_from_experience_dispatch_eq s inp hc hd] at h
      cases h
    | false =>
      rw [learn_from_experience_success_eq s inp hc hd] at h ⊢
      have hit : (updateRLAgent
          (applyLearningUpdates
            (updatePerformanceMetrics
              { s with learning_experiences :=
                  dequeAppend 10000 s.learning_experiences (mkExperience inp) }
              (mkExperience inp)) (mkExperience inp)).2 inp).learning_iteration =
          s.learning_iteration := by
        rw [(updateRLAgent_preserves _ inp).1, (applyLearningUpdates_preserves _ _).1]
        rfl
      constructor
      · have h1 : it = (updateRLAgent
            (applyLearningUpdates
              (updatePerformanceMetrics
                { s with learning_experiences :=
                    dequeAppend 10000 s.learning_experiences (mkExperience inp) }
                (mkExperience inp)) (mkExperience inp)).2 inp).learning_iteration := by
          injection h with h' _
          exact h'.symm
        rw [h1, hit]
      · show (updateRLAgent (applyLearningUpdates _ _).2 inp).learning_iteration + 1 = _
        rw [hit]

/-- Concrete engine for the C2/C3/C10 witnesses: fresh counters, the gradient
optimizer selected, and a 1×1 RL agent so evaluation stays small. -/
def witEngine : EnhancedAutonomousLearningCore :=
  { gradient_optimizer := AdaptiveGradientDescent.init (1/100)
    bayesian_optimizer := BayesianOptimizer.init [("learning_rate", 0, 1)]
    rl_agent := witAgent
    learning_experiences := []
    performance_metrics_overall := []
    current_optimizer := "gradient"
    learning_iteration := 0
    last_performance := 0 }

/-- Concrete input for the C2/C3/C10 witnesses: well-formed except that the
RL-agent update raises (and is swallowed). -/
def witInput : ExperienceInput :=
  { timestamp := "t0"
    context_params := []
    context_hash_raw := 0
    action_taken_hash_raw := 0
    outcome_performance := 2
    outcome_gradients := []
    outcome_next_state_hash_raw := 0
    outcome_episode_done := false
    reward := 1
    confidence := 1/2
    constructRaises := false
    dispatchRaises := false
    rlRaises := true }

/-- C2 (witness): on the fresh engine, a call whose only failure is inside the
RL-agent update still succeeds and bumps the counter from 0 to 1. -/
theorem C2_iteration_per_call_witness :
    ((learn_from_experience witEngine witInput).2.learning_iteration =
      if (learn_from_experience witEngine witInput).1.isSuccess = true then
        witEngine.learning_iteration + 1
      else witEngine.learning_iteration) ∧
    (learn_from_experience witEngine witInput).1.isSuccess = true :=
  ⟨(C2_iteration_per_call witEngine witInput).1,
   (C2_iteration_per_call witEngine witInput).2 rfl rfl⟩

/-- C3 (witness): a construct-raise leaves the fresh engine untouched with the
failure dict; a dispatch-raise returns the failure dict while the history and
metric entries appended before the raise are kept. -/
theorem C3_failure_semantics_witness :
    ((learn_from_experience witEngine
        { witInput with constructRaises := true }).1 =
      .err "experience construction failed" ∧
     (learn_from_experience witEngine
        { witInput with constructRaises := true }).1.isSuccess = false ∧
     (learn_from_experience witEngine
        { witInput with constructRaises := true }).2 = witEngine) ∧
    ((learn_from_experience witEngine
        { witInput with dispatchRaises := true }).1 =
      .err "strategy dispatch failed" ∧
     (learn_from_experience witEngine
        { witInput with dispatchRaises := true }).1.isSuccess = false ∧
     (learn_from_experience witEngine
        { witInput with dispatchRaises := true }).2.learning_iteration =
       witEngine.learning_iteration ∧
     (learn_from_experience witEngine
        { witInput with dispatchRaises := true }).2.learning_experiences =
       dequeAppend 10000 witEngine.learning_experiences
         (mkExperience { witInput with dispatchRaises := true }) ∧
     (learn_from_experience witEngine
        { witInput with dispatchRaises := true }).2.performance_metrics_overall =
       witEngine.performance_metrics_overall ++
         [({ witInput with dispatchRaises := true }.outcome_performance,
           { witInput with dispatchRaises := true }.timestamp)]) :=
  ⟨(C3_failure_semantics witEngine { witInput with constructRaises := true }).1 rfl,
   (C3_failure_semantics witEngine { witInput with dispatchRaises := true }).2 rfl rfl⟩

/-- C10 (witness): the first successful call on the fresh engine (counter 0)
reports `learning_iteration = 0` in its result while leaving the internal
counter at 1. -/
theorem C10_reported_iteration_witness :
    (0 : ℕ) = witEngine.learning_iteration ∧
    (learn_from_experience witEngine witInput).2.learning_iteration =
      witEngine.learning_iteration + 1 :=
  C10_reported_iteration witEngine witInput 0 2 "gradient" 0 (1/2) "t0"
    (by norm_num [learn_from_experience, witEngine, witInput, witAgent, mkExperience,
      dequeAppend, updatePerformanceMetrics, applyLearningUpdates, updateRLAgent,
      AdaptiveGradientDescent.init, AdaptiveGradientDescent.update, velocityStep,
      ReinforcementLearningAgent.get_policy_strength, npVar, npMax, listSum])

end EnhancedLearning
